import Mathlib

/-!
Verification development for `src/python/mxnet/gluon/data/batchify.py`.

The Python module is shallowly embedded: Python runtime values become the
inductive `PyVal`, numpy/mxnet dense arrays become `NpArray` (shape, dtype
and row-major flat data), and fallible Python code becomes `Except PyErr`.
Machine floats are modelled as rationals: no claim below depends on float
rounding, only on dtype bookkeeping and float-to-int truncation casts.
Device/context placement (cpu vs cpu_shared) has no effect on shapes,
dtypes or values and is not modelled; the `use_shared_mem` flags are kept
in the signatures and ignored, mirroring that they only pick an allocation
context in the source.
-/

/-- Python exception kinds raised by the embedded code paths. -/
inductive PyErr where
  | indexError
  | typeError
  | attributeError
  | valueError (msg : String)
  | nameError (missing : String)
  | assertionError (msg : String)
  | notImplementedError (msg : String)
deriving DecidableEq, Repr

/-- Numpy/mxnet dtypes that the batchify code paths can produce. -/
inductive DType where
  | int32
  | int64
  | float32
  | float64
deriving DecidableEq, Repr

/-- A scalar cell of an array: integer or float (floats as rationals). -/
inductive Scalar where
  | int (n : Int)
  | float (q : Rat)
deriving DecidableEq, Repr

/-- A dense numpy/mxnet array: shape, dtype, and row-major flat data. -/
structure NpArray where
  shape : List Nat
  dtype : DType
  data : List Scalar
deriving DecidableEq, Repr

/-- A Python runtime value as seen by the batchify functors. -/
inductive PyVal where
  | int (n : Int)
  | float (q : Rat)
  | str (s : String)
  | ndarray (t : NpArray)
  | mxarray (t : NpArray)
  | list (xs : List PyVal)
  | tuple (xs : List PyVal)
deriving Repr

/-- Wrap an integer into the signed 64-bit range, as numpy int64 does. -/
def wrap64 (n : Int) : Int :=
  (n + 2 ^ 63) % 2 ^ 64 - 2 ^ 63

/-- Wrap an integer into the signed 32-bit range, as numpy int32 does. -/
def wrap32 (n : Int) : Int :=
  (n + 2 ^ 31) % 2 ^ 32 - 2 ^ 31

/-- Truncate a rational toward zero, as a C-style float-to-int cast does. -/
def ratTrunc (q : Rat) : Int :=
  Int.tdiv q.num q.den

/-- Cast a scalar to a dtype.  Int dtypes truncate floats toward zero and
wrap into the machine range; float dtypes keep the rational value (float
rounding is not modelled, no claim depends on it). -/
def castScalar : DType → Scalar → Scalar
  | .int64, .int n => .int (wrap64 n)
  | .int64, .float q => .int (wrap64 (ratTrunc q))
  | .int32, .int n => .int (wrap32 n)
  | .int32, .float q => .int (wrap32 (ratTrunc q))
  | .float64, .int n => .float n
  | .float64, .float q => .float q
  | .float32, .int n => .float n
  | .float32, .float q => .float q

/-- Cast a whole array to a dtype, casting every cell. -/
def castTensor (d : DType) (t : NpArray) : NpArray :=
  ⟨t.shape, d, t.data.map (castScalar d)⟩

/-- The numpy dtype inferred for a bare Python scalar, as `np.full` infers
its dtype from `fill_value` when no dtype is given. -/
def scalarDType : Scalar → DType
  | .int _ => .int64
  | .float _ => .float64

/-- numpy dtype promotion, restricted to the dtypes `asarray` builds here
(int64 and float64); written total over all four dtypes. -/
def promoteDType (a b : DType) : DType :=
  if a = b then a
  else if a = .float64 ∨ b = .float64 then .float64
  else if a = .float32 ∨ b = .float32 then .float32
  else .int64

/-- Sequential map over `Except`, stopping at the first error: the monadic
list map the embedded list comprehensions use. -/
def mapME (f : α → Except PyErr β) : List α → Except PyErr (List β)
  | [] => .ok []
  | a :: l =>
    match f a, mapME f l with
    | .ok b, .ok bs => .ok (b :: bs)
    | .error e, _ => .error e
    | .ok _, .error e => .error e

/-- Python sequence indexing semantics over a `List Nat` (used for shape
tuples): negative indices count from the end, out of range raises. -/
def pyGetAt (l : List Nat) (i : Int) : Except PyErr Nat :=
  let j : Int := if i < 0 then i + l.length else i
  if h : 0 ≤ j ∧ j.toNat < l.length then .ok (l.get ⟨j.toNat, h.2⟩)
  else .error .indexError

/-- Python list item assignment semantics over a `List Nat`: negative
indices count from the end, out of range raises. -/
def pyListSet (l : List Nat) (i : Int) (v : Nat) : Except PyErr (List Nat) :=
  let j : Int := if i < 0 then i + l.length else i
  if 0 ≤ j ∧ j.toNat < l.length then .ok (l.set j.toNat v)
  else .error .indexError

/-- Normalize a possibly negative Python index against a length. -/
def normIdx (n : Nat) (i : Int) : Except PyErr Nat :=
  let j : Int := if i < 0 then i + n else i
  if 0 ≤ j ∧ j.toNat < n then .ok j.toNat
  else .error .indexError

/-- All multi-indices of a shape, in row-major (lexicographic) order. -/
def allIdx : List Nat → List (List Nat)
  | [] => [[]]
  | n :: s => ((List.range n).map (fun i => (allIdx s).map (fun idx => i :: idx))).flatten

/-- Row-major flat offset of a multi-index in a shape. -/
def flatIdx : List Nat → List Nat → Nat
  | [], _ => 0
  | _ :: _, [] => 0
  | _ :: s, i :: idx => i * s.prod + flatIdx s idx

/-- Read a cell of an array at a multi-index (default for invalid reads;
all uses below index within bounds). -/
def npGet (t : NpArray) (idx : List Nat) : Scalar :=
  t.data.getD (flatIdx t.shape idx) (.int 0)

/-- The `i`-th length-`shape.tail.prod` block of the flat data: slice `i`
along the leading axis of the array. -/
def nthRow (t : NpArray) (i : Nat) : List Scalar :=
  (t.data.drop (i * t.shape.tail.prod)).take t.shape.tail.prod

/-- Error message numpy raises for ragged nested sequences (numpy 1.24+). -/
def raggedMsg : String :=
  "setting an array element with a sequence: inhomogeneous shape"

/-- Error message numpy raises when a slice assignment shape-mismatches. -/
def broadcastMsg : String :=
  "could not broadcast input array"

/-- `np.asarray` applied to a Python sequence whose members have already
been converted to arrays: all members must share a shape (ragged input
raises, as in numpy) and dtypes are promoted; an empty sequence gives the
numpy default float64 with shape (0,). -/
def npCombine : List NpArray → Except PyErr NpArray
  | [] => .ok ⟨[0], .float64, []⟩
  | t :: rest =>
    if (∀ u ∈ rest, u.shape = t.shape) then
      let dt := rest.foldl (fun d u => promoteDType d u.dtype) t.dtype
      .ok ⟨(t :: rest).length :: t.shape, dt,
           ((t :: rest).map (fun u => u.data.map (castScalar dt))).flatten⟩
    else .error (.valueError raggedMsg)

mutual

/-- `np.asarray` on a Python value: numbers become 0-d arrays (int64 or
float64 on 64-bit Linux), numpy arrays pass through, nested lists/tuples
recurse; strings and mxnet NDArrays are outside the paths the claims
exercise and are modelled as a conversion error. -/
def asarray : PyVal → Except PyErr NpArray
  | .int n => .ok ⟨[], .int64, [.int n]⟩
  | .float q => .ok ⟨[], .float64, [.float q]⟩
  | .str _ => .error (.valueError "string arrays are not modelled")
  | .ndarray t => .ok t
  | .mxarray _ => .error (.valueError "asarray on an mxnet NDArray is not modelled")
  | .list xs =>
    match asarrayList xs with
    | .ok ts => npCombine ts
    | .error e => .error e
  | .tuple xs =>
    match asarrayList xs with
    | .ok ts => npCombine ts
    | .error e => .error e

/-- `np.asarray` over the members of a sequence, first error wins. -/
def asarrayList : List PyVal → Except PyErr (List NpArray)
  | [] => .ok []
  | v :: vs =>
    match asarray v, asarrayList vs with
    | .ok t, .ok ts => .ok (t :: ts)
    | .error e, _ => .error e
    | .ok _, .error e => .error e

end

/-- `mx.nd.array(src, ...)` on a numpy source: with `dtype=None` the numpy
dtype is kept; an explicit equal dtype is a plain copy; a differing dtype
casts. -/
def mxFromNp (t : NpArray) (d : Option DType) : NpArray :=
  match d with
  | none => t
  | some dt => if t.dtype = dt then t else castTensor dt t

/-- An argument of `mx.nd.stack` must be an mxnet NDArray. -/
def toMx : PyVal → Except PyErr NpArray
  | .mxarray t => .ok t
  | _ => .error .typeError

/-- `zip(*data)` iterates each row: list/tuple rows yield their members;
other iterables (strings, arrays) are outside the claimed paths and are
modelled as a type error. -/
def toSeq : PyVal → Except PyErr (List PyVal)
  | .list xs => .ok xs
  | .tuple xs => .ok xs
  | _ => .error .typeError

/-- The `i`-th member of every row, `none` as soon as some row is too
short: the truncating behaviour of Python `zip`. -/
def colAt : List (List PyVal) → Nat → Option (List PyVal)
  | [], _ => some []
  | r :: rs, i =>
    match r.get? i, colAt rs i with
    | some x, some c => some (x :: c)
    | _, _ => none

/-- The columns of `zip(xs, *restRows)`, each as (member of `xs`, members
of the remaining rows), in order, truncated at the shortest row. -/
def zipStar (xs : List PyVal) (restRows : List (List PyVal)) :
    List (PyVal × List PyVal) :=
  (List.range xs.length).filterMap (fun i =>
    match xs.get? i, colAt restRows i with
    | some x, some c => some (x, c)
    | _, _ => none)

/-- `mx.nd.stack(*arrs)`: same-shape, same-dtype arrays are joined under a
new leading axis of size `len(arrs)`. -/
def mxStack : List NpArray → Except PyErr NpArray
  | [] => .error (.valueError "need at least one array to stack")
  | t :: rest =>
    if (∀ u ∈ rest, u.shape = t.shape ∧ u.dtype = t.dtype) then
      .ok ⟨(t :: rest).length :: t.shape, t.dtype,
           ((t :: rest).map (fun u => u.data)).flatten⟩
    else .error (.valueError "stack arguments must agree in shape and dtype")

/-- `Stack.__call__` (batchify.py lines 69-97).  Dispatches on the type of
`data[0]`: mxnet NDArrays go through `mx.nd.stack` (with or without a
shared-memory output buffer, which only picks the allocation context);
list/tuple samples are transposed with `zip(*data)` and stacked
position-wise recursively; anything else goes through `np.asarray(data)`
and `mx.nd.array(out, dtype=out.dtype)`.  `data[0]` on an empty list
raises IndexError. -/
def stackCall (useShared : Bool) (data : List PyVal) : Except PyErr PyVal :=
  match data with
  | [] => .error .indexError
  | d0 :: rest =>
    match d0 with
    | .mxarray _ =>
      match mapME toMx (d0 :: rest) with
      | .ok ts =>
        match mxStack ts with
        | .ok t => .ok (.mxarray t)
        | .error e => .error e
      | .error e => .error e
    | .list xs =>
      match _h : mapME toSeq rest with
      | .ok restRows =>
        match mapME (fun p => stackCall useShared (p.val.1 :: p.val.2))
            (zipStar xs restRows).attach with
        | .ok ress => .ok (.list ress)
        | .error e => .error e
      | .error e => .error e
    | .tuple xs =>
      match _h : mapME toSeq rest with
      | .ok restRows =>
        match mapME (fun p => stackCall useShared (p.val.1 :: p.val.2))
            (zipStar xs restRows).attach with
        | .ok ress => .ok (.list ress)
        | .error e => .error e
      | .error e => .error e
    | _ =>
      match asarrayList (d0 :: rest) with
      | .ok ts =>
        match npCombine ts with
        | .ok out => .ok (.mxarray (mxFromNp out (some out.dtype)))
        | .error e => .error e
      | .error e => .error e
termination_by sizeOf data
decreasing_by
  all_goals
    obtain ⟨⟨x, c⟩, hp⟩ := p
    simp only [zipStar, List.mem_filterMap, List.mem_range] at hp
    obtain ⟨i, _hi, hcol⟩ := hp
    have hseq : ∀ (d : PyVal) (r : List PyVal), toSeq d = .ok r → sizeOf r < sizeOf d := by
      intro d r h
      cases d with
      | int n => simp [toSeq] at h
      | float q => simp [toSeq] at h
      | str s => simp [toSeq] at h
      | ndarray t => simp [toSeq] at h
      | mxarray t => simp [toSeq] at h
      | list ys => simp only [toSeq, Except.ok.injEq] at h; subst h; simp
      | tuple ys => simp only [toSeq, Except.ok.injEq] at h; subst h; simp
    have key : ∀ (ds : List PyVal) (rs : List (List PyVal)), mapME toSeq ds = .ok rs →
        ∀ (j : Nat) (cc : List PyVal), colAt rs j = some cc → sizeOf cc ≤ sizeOf ds := by
      intro ds
      induction ds with
      | nil =>
        intro rs h j cc hc
        simp only [mapME] at h
        cases h
        simp only [colAt] at hc
        cases hc
        simp
      | cons d ds ih =>
        intro rs h j cc hc
        simp only [mapME] at h
        cases hd : toSeq d with
        | error e => rw [hd] at h; cases h
        | ok r =>
          cases hds : mapME toSeq ds with
          | error e => rw [hd, hds] at h; cases h
          | ok rs2 =>
            rw [hd, hds] at h
            cases h
            simp only [colAt] at hc
            cases hg : r.get? j with
            | none => rw [hg] at hc; cases hc
            | some y =>
              cases hc2 : colAt rs2 j with
              | none => rw [hg, hc2] at hc; cases hc
              | some c2 =>
                rw [hg, hc2] at hc
                cases hc
                have hy : sizeOf y < sizeOf d :=
                  lt_trans (List.sizeOf_lt_of_mem (List.get?_mem hg)) (hseq d r hd)
                have hc2' : sizeOf c2 ≤ sizeOf ds := ih rs2 hds j c2 hc2
                simp only [List.cons.sizeOf_spec]
                omega
    cases hgx : xs.get? i with
    | none => rw [hgx] at hcol; cases hcol
    | some x0 =>
      cases hgc : colAt restRows i with
      | none => rw [hgx, hgc] at hcol; cases hcol
      | some c0 =>
        rw [hgx, hgc] at hcol
        cases hcol
        have hx : sizeOf x < sizeOf xs := List.sizeOf_lt_of_mem (List.get?_mem hgx)
        have hc : sizeOf c ≤ _ := key _ _ _h i c hgc
        simp only [List.cons.sizeOf_spec, PyVal.list.sizeOf_spec, PyVal.tuple.sizeOf_spec]
        omega

/-- The names bound at module level by the import block of batchify.py
(lines 21-28): `numpy as np`, `Context`, `cpu`, `ndarray as nd`,
`numpy as _np`, `is_np_array`.  Nothing imports `warnings`. -/
def batchifyModuleImports : List String :=
  ["np", "Context", "cpu", "nd", "_np", "is_np_array"]

/-- Evaluating the expression `warnings.warn(msg)` inside batchify.py:
the name `warnings` must resolve in the module scope (it is not a
builtin), otherwise Python raises NameError. -/
def warningsWarn (_msg : String) : Except PyErr Unit :=
  if batchifyModuleImports.contains "warnings" then .ok ()
  else .error (.nameError "warnings")

/-- Constructor-time configuration of a `Pad` instance. -/
structure PadCfg where
  axis : Int
  pad_val : Scalar
  ret_length : Bool
  dtype : Option DType
  use_shared_mem : Bool
deriving DecidableEq, Repr

/-- `Pad.__init__` (batchify.py lines 218-234).  The `axis must be an
integer` assertion always holds here since the embedded axis is an `Int`.
All fields are stored (`pad_val` defaulting to 0), then, when `pad_val`
was not supplied, `warnings.warn(...)` is evaluated. -/
def padInit (axis : Int) (pad_val : Option Scalar) (ret_length : Bool)
    (dtype : Option DType) (use_shared_mem : Bool) : Except PyErr PadCfg :=
  let cfg : PadCfg :=
    ⟨axis, pad_val.getD (.int 0), ret_length, dtype, use_shared_mem⟩
  if pad_val.isNone then
    match warningsWarn "Padding value is not given and will be set automatically to 0" with
    | .ok _ => .ok cfg
    | .error e => .error e
  else .ok cfg

/-- One iteration of the copy loop of `_pad_arrs_to_max_length` (lines
134-142), producing row `i` of the output buffer from sample `arr`: the
row starts as an all-`pad_val` buffer of shape `retShape0` and dtype `dt`
(`np.full`); a sample of full length `max_size` is assigned whole
(`ret[i] = arr`), a shorter non-empty sample is assigned onto the prefix
`0:l` of the pad axis, and a zero-length sample is skipped, leaving the
fill.  numpy's slice assignment requires the shapes to agree (general
broadcasting is not modelled); every stored cell is cast to `dt`. -/
def padRow (padAxis : Int) (padVal : Scalar) (dt : DType) (max_size : Nat)
    (retShape0 : List Nat) (arr : NpArray) : Except PyErr (List Scalar) :=
  match pyGetAt arr.shape padAxis with
  | .error e => .error e
  | .ok l =>
    if l = max_size then
      if arr.shape = retShape0 then
        match normIdx arr.shape.length padAxis with
        | .error e => .error e
        | .ok ax =>
          .ok ((allIdx retShape0).map (fun idx =>
            if idx.getD ax 0 < l then castScalar dt (npGet arr idx)
            else castScalar dt padVal))
      else .error (.valueError broadcastMsg)
    else if l ≠ 0 then
      match pyListSet arr.shape padAxis max_size with
      | .error e => .error e
      | .ok s =>
        if s = retShape0 then
          match normIdx arr.shape.length padAxis with
          | .error e => .error e
          | .ok ax =>
            .ok ((allIdx retShape0).map (fun idx =>
              if idx.getD ax 0 < l then castScalar dt (npGet arr idx)
              else castScalar dt padVal))
        else .error (.valueError broadcastMsg)
    else .ok (List.replicate retShape0.prod (castScalar dt padVal))

/-- `_pad_arrs_to_max_length` after its input-conversion block (lines
125-148), on samples already converted to numpy arrays: per-sample lengths
at the pad axis, `max_size`, the output shape `(N,) + ret_shape`, the
`np.full` buffer with dtype `dtype` or, when `None`, the dtype numpy
infers from `pad_val`, the per-sample copy loop, and the final conversion
of buffer and int32 length vector to mxnet arrays. -/
def padArrsCore (arrsNp : List NpArray) (padAxis : Int) (padVal : Scalar)
    (dtype : Option DType) : Except PyErr (NpArray × NpArray) :=
  match arrsNp with
  | [] => .error .indexError
  | b0 :: _ =>
    match mapME (fun a => pyGetAt a.shape padAxis) arrsNp with
    | .error e => .error e
    | .ok original_length =>
      match pyListSet b0.shape padAxis (original_length.foldl Nat.max 0) with
      | .error e => .error e
      | .ok retShape0 =>
        match mapME (padRow padAxis padVal (dtype.getD (scalarDType padVal))
            (original_length.foldl Nat.max 0) retShape0) arrsNp with
        | .error e => .error e
        | .ok rows =>
          .ok (mxFromNp ⟨arrsNp.length :: retShape0,
                         dtype.getD (scalarDType padVal), rows.flatten⟩ dtype,
               ⟨[original_length.length], .int32,
                original_length.map (fun n => castScalar .int32 (.int (n : Int)))⟩)

/-- An element of `arrs` when `arrs[0]` is an mxnet NDArray: the code
calls `arr.asnumpy()` on every element, which only NDArrays support. -/
def asnumpyOf : PyVal → Except PyErr NpArray
  | .mxarray t => .ok t
  | _ => .error .attributeError

/-- An element of `arrs` when `arrs[0]` is a numpy array: the elements
are used as numpy arrays directly (`.shape`, slice assignment), which
only numpy arrays support in the modelled paths. -/
def expectNdarray : PyVal → Except PyErr NpArray
  | .ndarray t => .ok t
  | _ => .error .attributeError

/-- `_pad_arrs_to_max_length` (batchify.py lines 103-148).  The input
dispatch on `arrs[0]`: NDArrays are converted via `asnumpy` and, when no
dtype is configured, the dtype is taken from `arrs[0]`; numpy arrays are
used as-is, again taking the missing dtype from `arrs[0]`; anything else
(plain number lists) goes through `np.asarray` per element and the dtype
variable stays `None`. -/
def padArrsToMaxLength (arrs : List PyVal) (padAxis : Int) (padVal : Scalar)
    (_useSharedMem : Bool) (dtype : Option DType) :
    Except PyErr (NpArray × NpArray) :=
  match arrs with
  | [] => .error .indexError
  | a0 :: _ =>
    match a0 with
    | .mxarray t0 =>
      match mapME asnumpyOf arrs with
      | .error e => .error e
      | .ok ts => padArrsCore ts padAxis padVal
          (if dtype.isNone then some t0.dtype else dtype)
    | .ndarray t0 =>
      match mapME expectNdarray arrs with
      | .error e => .error e
      | .ok ts => padArrsCore ts padAxis padVal
          (if dtype.isNone then some t0.dtype else dtype)
    | _ =>
      match mapME asarray arrs with
      | .error e => .error e
      | .ok ts => padArrsCore ts padAxis padVal dtype

/-- The message of the NotImplementedError of `Pad.__call__`. -/
def padNotImplMsg : String :=
  "Pad() does not support multiple items, use Group(Pad(), Pad(), ...) instead"

/-- `Pad.__call__` (batchify.py lines 236-274).  Returns the new value of
the one-shot `_warned` flag together with the call result.  `data[0]` on
an empty list raises IndexError.  A first call on NDArray samples sets
`_warned` and evaluates `warnings.warn(...)`, which raises NameError
because batchify.py never imports `warnings`.  NDArray, numpy-array and
list first samples are padded; any other first sample (e.g. a tuple of
grouped attributes) raises NotImplementedError pointing at Group. -/
def padCall (cfg : PadCfg) (warned : Bool) (data : List PyVal) :
    Bool × Except PyErr PyVal :=
  match data with
  | [] => (warned, .error .indexError)
  | d0 :: _ =>
    let isMx : Bool := match d0 with | .mxarray _ => true | _ => false
    let dispatch : Except PyErr PyVal :=
      match d0 with
      | .mxarray _ | .ndarray _ | .list _ =>
        match padArrsToMaxLength data cfg.axis cfg.pad_val cfg.use_shared_mem cfg.dtype with
        | .error e => .error e
        | .ok (padded_arr, original_length) =>
          if cfg.ret_length then
            .ok (.tuple [.mxarray padded_arr, .mxarray original_length])
          else .ok (.mxarray padded_arr)
      | _ => .error (.notImplementedError padNotImplMsg)
    if isMx && !warned then
      match warningsWarn "Using Pad with NDArrays is discouraged for speed reasons" with
      | .error e => (true, .error e)
      | .ok _ => (true, dispatch)
    else (warned, dispatch)

/-- `_arr.array(x)` inside `_append_arrs`: numpy sources keep their dtype,
other array-likes are converted with the mxnet default dtype float32. -/
def mxArrayFromPy : PyVal → Except PyErr NpArray
  | .ndarray t => .ok t
  | .mxarray t => .ok t
  | v =>
    match asarray v with
    | .ok t => .ok (castTensor .float32 t)
    | .error e => .error e

/-- `x.expand_dims(axis)`: insert a new axis of size 1; the axis may be
negative, counting from the end, and must lie within `[-(ndim+1), ndim]`. -/
def expandDims (t : NpArray) (axis : Int) : Except PyErr NpArray :=
  let n := t.shape.length
  let j : Int := if axis < 0 then axis + n + 1 else axis
  if 0 ≤ j ∧ j.toNat ≤ n then .ok ⟨t.shape.insertIdx j.toNat 1, t.dtype, t.data⟩
  else .error (.valueError "axis out of bounds for expand_dims")

/-- `_append_arrs` (batchify.py lines 276-293).  NDArray-headed input is
passed through (shared-memory relocation only changes the context);
otherwise every element goes through `_arr.array`.  With `expand` each
element is individually reshaped by `expand_dims` at `batch_axis`.  The
result is a Python list of N separate arrays. -/
def appendArrs (arrs : List PyVal) (_useSharedMem : Bool) (expand : Bool)
    (batchAxis : Int) : Except PyErr (List PyVal) :=
  match arrs with
  | [] => .error .indexError
  | a0 :: _ =>
    let outE : Except PyErr (List NpArray) :=
      match a0 with
      | .mxarray _ => mapME toMx arrs
      | _ => mapME mxArrayFromPy arrs
    match outE with
    | .error e => .error e
    | .ok out =>
      if expand then
        match mapME (fun t => expandDims t batchAxis) out with
        | .error e => .error e
        | .ok out2 => .ok (out2.map PyVal.mxarray)
      else .ok (out.map PyVal.mxarray)

/-- `Append.__call__` (batchify.py lines 321-332): delegates to
`_append_arrs` with the constructor-time configuration. -/
def appendCall (expand : Bool) (batchAxis : Int) (useSharedMem : Bool)
    (data : List PyVal) : Except PyErr PyVal :=
  match appendArrs data useSharedMem expand batchAxis with
  | .ok out => .ok (.list out)
  | .error e => .error e

/-- Python `len()` on the values the batchify code applies it to:
sequences and strings report their length, arrays the size of their
leading axis (0-d arrays and numbers raise TypeError). -/
def pyLen : PyVal → Except PyErr Nat
  | .list xs => .ok xs.length
  | .tuple xs => .ok xs.length
  | .str s => .ok s.length
  | .ndarray t =>
    match t.shape with
    | [] => .error .typeError
    | n :: _ => .ok n
  | .mxarray t =>
    match t.shape with
    | [] => .error .typeError
    | n :: _ => .ok n
  | _ => .error .typeError

/-- Python subscript `ele[i]` with a non-negative index, for the sequence
samples Group extracts attributes from; out of range raises IndexError,
non-sequences raise TypeError (array and string subscripts are outside
the claimed paths). -/
def pyIndexNat : PyVal → Nat → Except PyErr PyVal
  | .list xs, i =>
    match xs.get? i with
    | some v => .ok v
    | none => .error .indexError
  | .tuple xs, i =>
    match xs.get? i with
    | some v => .ok v
    | none => .error .indexError
  | _, _ => .error .typeError

/-- The message of the attribute-count assertion of `Group.__call__`,
reporting the expected count `len(self._fn)`. -/
def groupAssertMsg (k : Nat) : String :=
  "The number of attributes in each data sample should contains " ++
    toString k ++ " elements"

/-- A batchify sub-functor as stored in `Group`: a callable from the list
of per-sample attribute values to a batch value. -/
def BFn : Type := List PyVal → Except PyErr PyVal

/-- One iteration of the loop of `Group.__call__` (line 391-392), for the
enumerated sub-functor `p = (i, ele_fn)`: build the column
`[ele[i] for ele in data]`, then apply `ele_fn` to it. -/
def groupApplyOne (data : List PyVal) (p : Nat × BFn) : Except PyErr PyVal :=
  match mapME (fun ele => pyIndexNat ele p.1) data with
  | .error e => .error e
  | .ok col => p.2 col

/-- `Group.__call__` (batchify.py lines 376-393).  `len(data[0])` raises
IndexError on an empty input; the assertion compares only the FIRST
sample's attribute count with the number of stored functions; then
function `i` is applied to the list of the `i`-th attribute of every
sample, and the results are returned as a tuple. -/
def groupCall (fns : List BFn) (data : List PyVal) : Except PyErr PyVal :=
  match data with
  | [] => .error .indexError
  | d0 :: _ =>
    match pyLen d0 with
    | .error e => .error e
    | .ok n =>
      if n = fns.length then
        match mapME (groupApplyOne data) fns.enum with
        | .ok ret => .ok (.tuple ret)
        | .error e => .error e
      else .error (.assertionError (groupAssertMsg fns.length))

/-- `AsList.__call__` (batchify.py lines 409-420): `list(data)`. -/
def asListCall (data : List PyVal) : Except PyErr PyVal :=
  .ok (.list data)

theorem mapME_ok_length {α β : Type} {f : α → Except PyErr β} {l : List α}
    {ys : List β} (h : mapME f l = .ok ys) : ys.length = l.length := by
  induction l generalizing ys with
  | nil => simp only [mapME] at h; cases h; rfl
  | cons a l ih =>
    simp only [mapME] at h
    cases ha : f a with
    | error e => rw [ha] at h; cases h
    | ok b =>
      cases hl : mapME f l with
      | error e => rw [ha, hl] at h; cases h
      | ok bs =>
        rw [ha, hl] at h
        cases h
        simp [ih hl]

theorem mapME_ok_get {α β : Type} {f : α → Except PyErr β} {l : List α}
    {ys : List β} (h : mapME f l = .ok ys) (i : Nat) (hi : i < l.length)
    (hy : i < ys.length) : f (l.get ⟨i, hi⟩) = .ok (ys.get ⟨i, hy⟩) := by
  induction l generalizing ys i with
  | nil => cases hi
  | cons a l ih =>
    simp only [mapME] at h
    cases ha : f a with
    | error e => rw [ha] at h; cases h
    | ok b =>
      cases hl : mapME f l with
      | error e => rw [ha, hl] at h; cases h
      | ok bs =>
        rw [ha, hl] at h
        cases h
        cases i with
        | zero => simpa using ha
        | succ j => exact ih hl j (Nat.lt_of_succ_lt_succ hi) (Nat.lt_of_succ_lt_succ hy)

theorem mapME_map_ok {α β : Type} {f : α → Except PyErr β} {g : α → β}
    {l : List α} (h : ∀ a ∈ l, f a = .ok (g a)) : mapME f l = .ok (l.map g) := by
  induction l with
  | nil => rfl
  | cons a l ih =>
    have ha : f a = .ok (g a) := h a (List.mem_cons_self a l)
    have hl : mapME f l = .ok (l.map g) := ih (fun b hb => h b (List.mem_cons_of_mem a hb))
    simp only [mapME, ha, hl, List.map_cons]

theorem mapME_wrap {f : PyVal → Except PyErr NpArray} {wrap : NpArray → PyVal}
    (hf : ∀ t, f (wrap t) = .ok t) (ts : List NpArray) :
    mapME f (ts.map wrap) = .ok ts := by
  induction ts with
  | nil => rfl
  | cons t ts ih => simp only [List.map_cons, mapME, hf t, ih]

theorem flatten_block {α : Type} {rows : List (List α)} {L : Nat}
    (h : ∀ r ∈ rows, r.length = L) (i : Nat) (hi : i < rows.length) :
    ((rows.flatten).drop (i * L)).take L = rows.get ⟨i, hi⟩ := by
  induction rows generalizing i with
  | nil => cases hi
  | cons r rows ih =>
    have hr : r.length = L := h r (List.mem_cons_self r rows)
    cases i with
    | zero =>
      simp only [Nat.zero_mul, List.drop_zero, List.flatten_cons, List.get]
      rw [← hr, List.take_left]
    | succ j =>
      have hj : j < rows.length := Nat.lt_of_succ_lt_succ hi
      have hrest : ∀ r ∈ rows, r.length = L := fun s hs => h s (List.mem_cons_of_mem r hs)
      calc ((r :: rows).flatten.drop ((j + 1) * L)).take L
          = ((rows.flatten).drop (j * L)).take L := by
            rw [List.flatten_cons, Nat.succ_mul, Nat.add_comm (j * L) L,
              ← List.drop_drop, ← hr, List.drop_left]
        _ = rows.get ⟨j, hj⟩ := ih hrest j hj

theorem allIdx_length (s : List Nat) : (allIdx s).length = s.prod := by
  induction s with
  | nil => rfl
  | cons n s ih =>
    simp only [allIdx, List.length_flatten, List.map_map, List.prod_cons]
    have : ((List.range n).map (List.length ∘ fun i => (allIdx s).map (fun idx => i :: idx))).sum
        = ((List.range n).map (fun _ => s.prod)).sum := by
      congr 1
      apply List.map_congr_left
      intro i _
      simp [ih]
    rw [this]
    simp [List.map_const', List.sum_replicate, smul_eq_mul, Nat.mul_comm]

theorem padRow_length {padAxis : Int} {padVal : Scalar} {dt : DType}
    {max_size : Nat} {retShape0 : List Nat} {arr : NpArray} {row : List Scalar}
    (h : padRow padAxis padVal dt max_size retShape0 arr = .ok row) :
    row.length = retShape0.prod := by
  unfold padRow at h
  split at h
  · cases h
  · split at h
    · split at h
      · split at h
        · cases h
        · cases h; simp [allIdx_length]
      · cases h
    · split at h
      · split at h
        · cases h
        · split at h
          · split at h
            · cases h
            · cases h; simp [allIdx_length]
          · cases h
      · cases h; simp

theorem foldl_max_init_le (l : List Nat) (a : Nat) : a ≤ l.foldl Nat.max a := by
  induction l generalizing a with
  | nil => simp
  | cons b l ih => exact le_trans (Nat.le_max_left a b) (ih (Nat.max a b))

theorem le_foldl_max {l : List Nat} (a : Nat) : ∀ x ∈ l, x ≤ l.foldl Nat.max a := by
  induction l generalizing a with
  | nil => simp
  | cons b l ih =>
    intro x hx
    rcases List.mem_cons.mp hx with h | h
    · subst h
      exact le_trans (Nat.le_max_right a x) (foldl_max_init_le l (Nat.max a x))
    · exact ih (Nat.max a b) x h

theorem mapME_ok_forall {α β : Type} {f : α → Except PyErr β} {l : List α}
    {ys : List β} (h : mapME f l = .ok ys) :
    ∀ y ∈ ys, ∃ a ∈ l, f a = .ok y := by
  induction l generalizing ys with
  | nil => simp only [mapME] at h; cases h; intro y hy; cases hy
  | cons a l ih =>
    simp only [mapME] at h
    cases ha : f a with
    | error e => rw [ha] at h; cases h
    | ok b =>
      cases hl : mapME f l with
      | error e => rw [ha, hl] at h; cases h
      | ok bs =>
        rw [ha, hl] at h
        cases h
        intro y hy
        rcases List.mem_cons.mp hy with hy | hy
        · exact ⟨a, List.mem_cons_self a l, hy ▸ ha⟩
        · obtain ⟨a2, ha2, hfa2⟩ := ih hl y hy
          exact ⟨a2, List.mem_cons_of_mem a ha2, hfa2⟩

/-- The dtype of the buffer `padArrsCore` hands back: the configured one,
or, when none is configured by the time `np.full` runs, the dtype numpy
infers from the fill value. -/
theorem padArrsCore_dtype {ts : List NpArray} {ax : Int} {pv : Scalar}
    {dt0 : Option DType} {pr : NpArray × NpArray}
    (h : padArrsCore ts ax pv dt0 = .ok pr) :
    pr.1.dtype = dt0.getD (scalarDType pv) := by
  unfold padArrsCore at h
  split at h
  · cases h
  · split at h
    · cases h
    · split at h
      · cases h
      · split at h
        · cases h
        · cases h
          cases dt0 with
          | none => rfl
          | some d => simp [mxFromNp, castTensor]

/-- C1: constructing Pad without a pad value does NOT succeed with a
default of 0 and an advisory warning: `Pad.__init__` evaluates
`warnings.warn(...)` but batchify.py never imports `warnings`, so the
construction raises NameError.  The claim matches the documented intent;
the missing import is a code bug. -/
theorem C1_padInit_without_pad_val_raises_NameError :
    padInit 0 none false none false = .error (.nameError "warnings") ∧
    batchifyModuleImports.contains "warnings" = false := by
  exact ⟨rfl, rfl⟩

/-- C2 counterexample: a batch whose single sample is a nested LIST of
grouped attributes (`[[1, 2, 3, 4], 0]`) does not raise the
NotImplementedError pointing at Group: the `isinstance(data[0],
(_arr.NDArray, np.ndarray, list))` dispatch accepts any list, and the
call instead dies inside `np.asarray` on the ragged nesting. -/
theorem C2_nested_list_sample_not_NotImplementedError :
    (padCall ⟨0, .int 0, false, none, false⟩ false
        [.list [.list [.int 1, .int 2, .int 3, .int 4], .int 0]]).2 =
      .error (.valueError raggedMsg) ∧
    (padCall ⟨0, .int 0, false, none, false⟩ false
        [.list [.list [.int 1, .int 2, .int 3, .int 4], .int 0]]).2 ≠
      .error (.notImplementedError padNotImplMsg) := by
  refine ⟨rfl, fun h => ?_⟩
  rw [show (padCall ⟨0, .int 0, false, none, false⟩ false
      [.list [.list [.int 1, .int 2, .int 3, .int 4], .int 0]]).2 =
      .error (.valueError raggedMsg) from rfl] at h
  exact absurd (Except.error.inj h) (by simp)

/-- C2 amended: only a first sample that is neither an mxnet NDArray, a
numpy array, nor a list — such as a tuple of grouped attributes — makes
`Pad.__call__` fail immediately with the NotImplementedError naming
Group; nested-list samples pass the dispatch into the padding routine. -/
theorem C2_tuple_sample_raises_NotImplementedError (cfg : PadCfg)
    (warned : Bool) (xs rest : List PyVal) :
    padCall cfg warned (.tuple xs :: rest) =
      (warned, .error (.notImplementedError padNotImplMsg)) := rfl

/-- C3 counterexample: `Group.__call__` checks the attribute count of the
FIRST sample only.  With one sub-functor (K = 1) and a second sample
carrying two attributes, the call succeeds and silently drops the extra
attribute instead of failing with the assertion error. -/
theorem C3_second_sample_mismatch_not_checked :
    groupCall [asListCall] [.tuple [.int 1], .tuple [.int 2, .int 3]] =
      .ok (.tuple [.list [.int 1, .int 2]]) := rfl

/-- C3 amended: the assertion guards only the first sample: whenever
`len(data[0])` differs from the number K of sub-functors, the call fails
with the assertion error reporting K; mismatches in later samples are not
caught by the assertion. -/
theorem C3_first_sample_count_mismatch_asserts (fns : List BFn)
    (d0 : PyVal) (rest : List PyVal) (n : Nat) (hn : pyLen d0 = .ok n)
    (hne : n ≠ fns.length) :
    groupCall fns (d0 :: rest) =
      .error (.assertionError (groupAssertMsg fns.length)) := by
  simp only [groupCall, hn]
  simp [hne]

theorem C3_first_sample_count_mismatch_asserts_witness :
    groupCall [asListCall] [.tuple [.int 1, .int 2]] =
      .error (.assertionError (groupAssertMsg 1)) :=
  C3_first_sample_count_mismatch_asserts [asListCall] (.tuple [.int 1, .int 2])
    [] 2 rfl (by decide)

/-- C5: `Pad(pad_val=0)` on `[[1,2,3,4],[4,5,6],[8,2]]` constructs
successfully and returns the 3x4 batch with rows `[1,2,3,4]`, `[4,5,6,0]`,
`[8,2,0,0]`; with `ret_length=True` it additionally returns the int32
length vector `[4,3,2]`. -/
theorem C5_pad_concrete_example :
    padInit 0 (some (.int 0)) false none false =
      .ok ⟨0, .int 0, false, none, false⟩ ∧
    (padCall ⟨0, .int 0, false, none, false⟩ false
        [.list [.int 1, .int 2, .int 3, .int 4],
         .list [.int 4, .int 5, .int 6],
         .list [.int 8, .int 2]]).2 =
      .ok (.mxarray ⟨[3, 4], .int64,
        [.int 1, .int 2, .int 3, .int 4,
         .int 4, .int 5, .int 6, .int 0,
         .int 8, .int 2, .int 0, .int 0]⟩) ∧
    padInit 0 (some (.int 0)) true none false =
      .ok ⟨0, .int 0, true, none, false⟩ ∧
    (padCall ⟨0, .int 0, true, none, false⟩ false
        [.list [.int 1, .int 2, .int 3, .int 4],
         .list [.int 4, .int 5, .int 6],
         .list [.int 8, .int 2]]).2 =
      .ok (.tuple
        [.mxarray ⟨[3, 4], .int64,
          [.int 1, .int 2, .int 3, .int 4,
           .int 4, .int 5, .int 6, .int 0,
           .int 8, .int 2, .int 0, .int 0]⟩,
         .mxarray ⟨[3], .int32, [.int 4, .int 3, .int 2]⟩]) :=
  ⟨rfl, rfl, rfl, rfl⟩

/-- C4 counterexample: for plain number-list samples the claim fails.
With samples `[1.5]` and `[2.5]` (float64 once converted) and
`pad_val=0`, dtype `None`, the output buffer dtype is the int64 numpy
infers from the pad value, not the float64 dtype of the first sample —
the sample values are even truncated to 1 and 2. -/
theorem C4_list_samples_dtype_from_pad_val :
    padArrsToMaxLength [.list [.float (mkRat 3 2)], .list [.float (mkRat 5 2)]] 0
        (.int 0) false none =
      .ok (⟨[2, 1], .int64, [.int 1, .int 2]⟩,
           ⟨[2], .int32, [.int 1, .int 1]⟩) ∧
    asarray (.list [.float (mkRat 3 2)]) = .ok ⟨[1], .float64, [.float (mkRat 3 2)]⟩ ∧
    DType.int64 ≠ DType.float64 :=
  ⟨rfl, rfl, by decide⟩

/-- C4 amended: when the configured dtype is `None`, the output dtype of
`_pad_arrs_to_max_length` equals the first sample's dtype for NDArray and
numpy-array samples; for plain number-list samples it is instead the
dtype numpy infers from the pad value; a configured dtype is always used
as-is. -/
theorem C4_pad_output_dtype :
    (∀ (t0 : NpArray) (rest : List PyVal) (ax : Int) (pv : Scalar) (sh : Bool)
        (dt0 : Option DType) (pr : NpArray × NpArray),
      padArrsToMaxLength (.mxarray t0 :: rest) ax pv sh dt0 = .ok pr →
      pr.1.dtype = dt0.getD t0.dtype) ∧
    (∀ (t0 : NpArray) (rest : List PyVal) (ax : Int) (pv : Scalar) (sh : Bool)
        (dt0 : Option DType) (pr : NpArray × NpArray),
      padArrsToMaxLength (.ndarray t0 :: rest) ax pv sh dt0 = .ok pr →
      pr.1.dtype = dt0.getD t0.dtype) ∧
    (∀ (d0 : PyVal) (rest : List PyVal) (ax : Int) (pv : Scalar) (sh : Bool)
        (dt0 : Option DType) (pr : NpArray × NpArray),
      (∀ t, d0 ≠ .mxarray t) → (∀ t, d0 ≠ .ndarray t) →
      padArrsToMaxLength (d0 :: rest) ax pv sh dt0 = .ok pr →
      pr.1.dtype = dt0.getD (scalarDType pv)) := by
  refine ⟨?_, ?_, ?_⟩
  · intro t0 rest ax pv sh dt0 pr h
    simp only [padArrsToMaxLength] at h
    split at h
    · cases h
    · have hd := padArrsCore_dtype h
      cases dt0 with
      | none => simpa using hd
      | some d => simpa using hd
  · intro t0 rest ax pv sh dt0 pr h
    simp only [padArrsToMaxLength] at h
    split at h
    · cases h
    · have hd := padArrsCore_dtype h
      cases dt0 with
      | none => simpa using hd
      | some d => simpa using hd
  · intro d0 rest ax pv sh dt0 pr hmx hnd h
    cases d0 with
    | mxarray t => exact absurd rfl (hmx t)
    | ndarray t => exact absurd rfl (hnd t)
    | int n =>
      simp only [padArrsToMaxLength] at h
      split at h
      · cases h
      · exact padArrsCore_dtype h
    | float q =>
      simp only [padArrsToMaxLength] at h
      split at h
      · cases h
      · exact padArrsCore_dtype h
    | str s =>
      simp only [padArrsToMaxLength] at h
      split at h
      · cases h
      · exact padArrsCore_dtype h
    | list xs =>
      simp only [padArrsToMaxLength] at h
      split at h
      · cases h
      · exact padArrsCore_dtype h
    | tuple xs =>
      simp only [padArrsToMaxLength] at h
      split at h
      · cases h
      · exact padArrsCore_dtype h

theorem C4_pad_output_dtype_witness :
    ((⟨⟨[1, 1], .int64, [.int 1]⟩, ⟨[1], .int32, [.int 1]⟩⟩ :
        NpArray × NpArray)).1.dtype = (none : Option DType).getD DType.int64 :=
  C4_pad_output_dtype.2.1 ⟨[1], .int64, [.int 1]⟩ [] 0 (.int 0) false none
    ⟨⟨[1, 1], .int64, [.int 1]⟩, ⟨[1], .int32, [.int 1]⟩⟩ rfl

/-- C7: Group of K sub-functors on N samples of K attributes each returns
the K-tuple whose position i is sub-functor i applied to the list of the
N values at attribute position i (stated with the columns and per-functor
results given as functions `cols`, `rs`); and, concretely,
`Group(Pad(pad_val=0), Stack())` on `[([1,2,3,4],0), ([5,7],1)]` returns
the padded batch `[[1,2,3,4],[5,7,0,0]]` paired with the stacked array
`[0,1]`. -/
theorem C7_group_applies_subfunctors_fieldwise :
    (∀ (fns : List BFn) (data : List PyVal) (d0 : PyVal) (rest : List PyVal)
        (cols : Nat → List PyVal) (rs : Nat → PyVal),
      data = d0 :: rest →
      pyLen d0 = .ok fns.length →
      (∀ i, i < fns.length →
        mapME (fun ele => pyIndexNat ele i) data = .ok (cols i)) →
      (∀ (i : Nat) (h : i < fns.length), fns.get ⟨i, h⟩ (cols i) = .ok (rs i)) →
      groupCall fns data = .ok (.tuple ((List.range fns.length).map rs))) ∧
    groupCall
      [fun d => (padCall ⟨0, .int 0, false, none, false⟩ false d).2,
       fun d => stackCall false d]
      [.tuple [.list [.int 1, .int 2, .int 3, .int 4], .int 0],
       .tuple [.list [.int 5, .int 7], .int 1]] =
      .ok (.tuple
        [.mxarray ⟨[2, 4], .int64,
          [.int 1, .int 2, .int 3, .int 4, .int 5, .int 7, .int 0, .int 0]⟩,
         .mxarray ⟨[2], .int64, [.int 0, .int 1]⟩]) := by
  have hgen : ∀ (fns : List BFn) (data : List PyVal) (d0 : PyVal)
      (rest : List PyVal) (cols : Nat → List PyVal) (rs : Nat → PyVal),
      data = d0 :: rest →
      pyLen d0 = .ok fns.length →
      (∀ i, i < fns.length →
        mapME (fun ele => pyIndexNat ele i) data = .ok (cols i)) →
      (∀ (i : Nat) (h : i < fns.length), fns.get ⟨i, h⟩ (cols i) = .ok (rs i)) →
      groupCall fns data = .ok (.tuple ((List.range fns.length).map rs)) := by
    intro fns data d0 rest cols rs hd hn hcols hfns
    subst hd
    simp only [groupCall, hn, if_pos]
    have hmap : mapME (groupApplyOne (d0 :: rest)) fns.enum =
        .ok (fns.enum.map (fun p => rs p.1)) := by
      apply mapME_map_ok
      intro p hp
      obtain ⟨i, fn⟩ := p
      have hget : fns.get? i = some fn := List.mk_mem_enum_iff_get?.mp hp
      have hi : i < fns.length := List.get?_eq_some.mp hget |>.1
      have hfn : fn = fns.get ⟨i, hi⟩ := by
        have := List.get?_eq_get hi
        rw [this] at hget
        exact (Option.some.inj hget).symm
      simp only [groupApplyOne, hcols i hi]
      rw [hfn]
      exact hfns i hi
    rw [hmap]
    rw [show (fun p : Nat × BFn => rs p.1) = rs ∘ Prod.fst from rfl,
      ← List.map_map, List.enum_map_fst]
  refine ⟨hgen, ?_⟩
  have h2 := hgen
    [fun d => (padCall ⟨0, .int 0, false, none, false⟩ false d).2,
     fun d => stackCall false d]
    [.tuple [.list [.int 1, .int 2, .int 3, .int 4], .int 0],
     .tuple [.list [.int 5, .int 7], .int 1]]
    (.tuple [.list [.int 1, .int 2, .int 3, .int 4], .int 0])
    [.tuple [.list [.int 5, .int 7], .int 1]]
    (fun i => if i = 0 then
        [.list [.int 1, .int 2, .int 3, .int 4], .list [.int 5, .int 7]]
      else [.int 0, .int 1])
    (fun i => if i = 0 then
        .mxarray ⟨[2, 4], .int64,
          [.int 1, .int 2, .int 3, .int 4, .int 5, .int 7, .int 0, .int 0]⟩
      else .mxarray ⟨[2], .int64, [.int 0, .int 1]⟩)
    rfl rfl
    (by
      intro i hi
      have hi2 : i < 2 := by simpa using hi
      rcases i with _ | _ | n
      · rfl
      · rfl
      · omega)
    (by
      intro i hi
      have hi2 : i < 2 := by simpa using hi
      rcases i with _ | _ | n
      · rfl
      · show stackCall false [.int 0, .int 1] =
          .ok (.mxarray ⟨[2], .int64, [.int 0, .int 1]⟩)
        rw [stackCall]
        · rfl
        all_goals simp
      · omega)
  exact h2

theorem C7_group_applies_subfunctors_fieldwise_witness :
    groupCall [asListCall, asListCall] [.tuple [.int 1, .int 2]] =
      .ok (.tuple [.list [.int 1], .list [.int 2]]) :=
  C7_group_applies_subfunctors_fieldwise.1 [asListCall, asListCall]
    [.tuple [.int 1, .int 2]] (.tuple [.int 1, .int 2]) []
    (fun i => if i = 0 then [.int 1] else [.int 2])
    (fun i => if i = 0 then .list [.int 1] else .list [.int 2])
    rfl rfl
    (by
      intro i hi
      have hi2 : i < 2 := by simpa using hi
      rcases i with _ | _ | n
      · rfl
      · rfl
      · omega)
    (by
      intro i hi
      have hi2 : i < 2 := by simpa using hi
      rcases i with _ | _ | n
      · rfl
      · rfl
      · omega)

/-- C8: in a padded batch that contains a sample of length zero along the
pad axis while some other sample has positive length, the output row of
the zero-length sample consists entirely of the pad value (cast to the
output dtype): the copy loop skips the zero-length slice assignment and
leaves the `np.full` fill untouched. -/
theorem C8_zero_length_sample_row_is_all_pad (ts : List NpArray) (ax : Int)
    (pv : Scalar) (sh : Bool) (dt0 : Option DType) (pr : NpArray × NpArray)
    (h : padArrsToMaxLength (ts.map .ndarray) ax pv sh dt0 = .ok pr)
    (i : Nat) (hi : i < ts.length)
    (hzero : pyGetAt (ts.get ⟨i, hi⟩).shape ax = .ok 0)
    (hpos : ∃ (j : Nat) (hj : j < ts.length) (l : Nat),
      pyGetAt (ts.get ⟨j, hj⟩).shape ax = .ok l ∧ 0 < l) :
    nthRow pr.1 i =
      List.replicate pr.1.shape.tail.prod (castScalar pr.1.dtype pv) := by
  cases ts with
  | nil => exact absurd hi (by simp)
  | cons t0 ts2 =>
    have hconv : mapME expectNdarray (List.map PyVal.ndarray (t0 :: ts2)) =
        .ok (t0 :: ts2) := mapME_wrap (fun t => rfl) (t0 :: ts2)
    simp only [List.map_cons] at hconv
    simp only [List.map_cons, padArrsToMaxLength, hconv] at h
    simp only [padArrsCore] at h
    split at h
    · cases h
    · split at h
      · cases h
      · split at h
        · cases h
        · rename_i x1 olen holen x2 rshape hrshape x3 rows hrows
          cases h
          have hmx : mxFromNp
              ⟨(t0 :: ts2).length :: rshape,
               (if dt0.isNone then some t0.dtype else dt0).getD (scalarDType pv),
               rows.flatten⟩
              (if dt0.isNone then some t0.dtype else dt0) =
              ⟨(t0 :: ts2).length :: rshape,
               (if dt0.isNone then some t0.dtype else dt0).getD (scalarDType pv),
               rows.flatten⟩ := by
            cases dt0 <;> simp [mxFromNp]
          rw [hmx]
          simp only [nthRow, List.tail_cons]
          have hrowlen : ∀ r ∈ rows, r.length = rshape.prod := by
            intro r hr
            obtain ⟨a, _, hfa⟩ := mapME_ok_forall hrows r hr
            exact padRow_length hfa
          have hlenr : rows.length = (t0 :: ts2).length := mapME_ok_length hrows
          have hi2 : i < rows.length := by rw [hlenr]; exact hi
          have hfb := flatten_block hrowlen i hi2
          have hri := mapME_ok_get hrows i hi hi2
          obtain ⟨j, hj, l, hl, hlpos⟩ := hpos
          have hleno : olen.length = (t0 :: ts2).length := mapME_ok_length holen
          have hj2 : j < olen.length := by rw [hleno]; exact hj
          have hgetj := mapME_ok_get holen j hj hj2
          have hlj : olen.get ⟨j, hj2⟩ = l := by
            rw [hgetj] at hl
            exact Except.ok.inj hl
          have hmaxpos : 0 < List.foldl Nat.max 0 olen := by
            have hmem : l ∈ olen := hlj ▸ olen.get_mem j hj2
            exact lt_of_lt_of_le hlpos (le_foldl_max 0 l hmem)
          simp only [padRow, hzero] at hri
          rw [if_neg (Nat.ne_of_lt hmaxpos)] at hri
          rw [if_neg (by simp : ¬(0 ≠ 0))] at hri
          rw [hfb, ← Except.ok.inj hri]

theorem C8_zero_length_sample_row_is_all_pad_witness :
    nthRow (⟨[2, 2], .int64, [.int 0, .int 0, .int 1, .int 2]⟩ : NpArray) 0 =
      List.replicate
        ((⟨[2, 2], .int64, [.int 0, .int 0, .int 1, .int 2]⟩ : NpArray).shape.tail.prod)
        (castScalar
          ((⟨[2, 2], .int64, [.int 0, .int 0, .int 1, .int 2]⟩ : NpArray)).dtype
          (.int 0)) :=
  C8_zero_length_sample_row_is_all_pad
    [⟨[0], .int64, []⟩, ⟨[2], .int64, [.int 1, .int 2]⟩] 0 (.int 0) false none
    (⟨[2, 2], .int64, [.int 0, .int 0, .int 1, .int 2]⟩,
     ⟨[2], .int32, [.int 0, .int 2]⟩)
    rfl 0 (by decide) rfl ⟨1, by decide, 2, rfl, by decide⟩

/-- C6: `Stack()` on a non-empty list of N mxnet NDArrays of identical
shape (and dtype, as `mx.nd.stack` requires) returns one array whose
shape is `(N,) + element_shape` and whose i-th leading-axis slice equals
the i-th input elementwise. -/
theorem C6_stack_shape_and_slices (ts : List NpArray) (t0 : NpArray)
    (rest : List NpArray) (useShared : Bool) (hts : ts = t0 :: rest)
    (hsh : ∀ t ∈ ts, t.shape = t0.shape ∧ t.dtype = t0.dtype)
    (hlen : ∀ t ∈ ts, t.data.length = t0.shape.prod) :
    ∃ T : NpArray,
      stackCall useShared (ts.map .mxarray) = .ok (.mxarray T) ∧
      T.shape = ts.length :: t0.shape ∧
      ∀ (i : Nat) (hi : i < ts.length), nthRow T i = (ts.get ⟨i, hi⟩).data := by
  subst hts
  refine ⟨⟨(t0 :: rest).length :: t0.shape, t0.dtype,
    ((t0 :: rest).map (fun u => u.data)).flatten⟩, ?_, rfl, ?_⟩
  · have hconv : mapME toMx (PyVal.mxarray t0 :: List.map PyVal.mxarray rest) =
        .ok (t0 :: rest) := by
      have h := @mapME_wrap toMx PyVal.mxarray (fun t => rfl) (t0 :: rest)
      simpa using h
    simp only [List.map_cons]
    rw [stackCall, hconv]
    simp only [mxStack]
    rw [if_pos (fun u hu => hsh u (List.mem_cons_of_mem t0 hu))]
    rfl
  · intro i hi
    have hrowlen : ∀ r ∈ (t0 :: rest).map (fun u => u.data),
        r.length = t0.shape.prod := by
      intro r hr
      obtain ⟨u, hu, rfl⟩ := List.mem_map.mp hr
      exact hlen u hu
    have hi2 : i < ((t0 :: rest).map (fun u => u.data)).length := by simpa using hi
    have hfb := flatten_block hrowlen i hi2
    simp only [nthRow, List.tail_cons]
    rw [hfb]
    have hmapget : (List.map (fun u => u.data) (t0 :: rest)).get ⟨i, hi2⟩ =
        (fun u => u.data) ((t0 :: rest).get ⟨i, by simpa using hi2⟩) := by
      simp only [List.get_eq_getElem, List.getElem_map]
    exact hmapget

theorem C6_stack_shape_and_slices_witness :
    ∃ T : NpArray,
      stackCall false
          ([⟨[2], .int64, [.int 1, .int 2]⟩,
            ⟨[2], .int64, [.int 3, .int 4]⟩].map PyVal.mxarray) =
        .ok (.mxarray T) ∧
      T.shape = [(⟨[2], .int64, [.int 1, .int 2]⟩ : NpArray),
        ⟨[2], .int64, [.int 3, .int 4]⟩].length :: [2] ∧
      ∀ (i : Nat) (hi : i < [(⟨[2], .int64, [.int 1, .int 2]⟩ : NpArray),
          ⟨[2], .int64, [.int 3, .int 4]⟩].length),
        nthRow T i =
          ([(⟨[2], .int64, [.int 1, .int 2]⟩ : NpArray),
            ⟨[2], .int64, [.int 3, .int 4]⟩].get ⟨i, hi⟩).data :=
  C6_stack_shape_and_slices
    [⟨[2], .int64, [.int 1, .int 2]⟩, ⟨[2], .int64, [.int 3, .int 4]⟩]
    ⟨[2], .int64, [.int 1, .int 2]⟩ [⟨[2], .int64, [.int 3, .int 4]⟩] false
    rfl (by decide) (by decide)

/-- C9: `Append` on a non-empty list of mxnet NDArrays of arbitrary,
possibly differing, shapes succeeds and returns a Python list of N
separate arrays (never merged into one tensor): with `expand` each
element individually gains a size-1 axis at the configured batch axis,
otherwise each keeps its own shape; and, concretely, `Append()` (expand
on, batch axis 0) on the number lists `[1,2,3,4]`, `[4,5,6]`, `[8,2]`
returns three separate float32 arrays of shapes (1,4), (1,3), (1,2). -/
theorem C9_append_returns_separate_arrays :
    (∀ (ts : List NpArray) (t0 : NpArray) (rest : List NpArray)
        (expand : Bool) (shared : Bool) (a : Nat),
      ts = t0 :: rest →
      (∀ t ∈ ts, a ≤ t.shape.length) →
      appendCall expand (a : Int) shared (ts.map .mxarray) =
        .ok (.list (ts.map (fun t => .mxarray
          (if expand then ⟨t.shape.insertIdx a 1, t.dtype, t.data⟩ else t))))) ∧
    appendCall true 0 false
      [.list [.int 1, .int 2, .int 3, .int 4],
       .list [.int 4, .int 5, .int 6],
       .list [.int 8, .int 2]] =
      .ok (.list
        [.mxarray ⟨[1, 4], .float32, [.float 1, .float 2, .float 3, .float 4]⟩,
         .mxarray ⟨[1, 3], .float32, [.float 4, .float 5, .float 6]⟩,
         .mxarray ⟨[1, 2], .float32, [.float 8, .float 2]⟩]) := by
  constructor
  · intro ts t0 rest expand shared a hts ha
    subst hts
    have hconv : mapME toMx (PyVal.mxarray t0 :: List.map PyVal.mxarray rest) =
        .ok (t0 :: rest) := by
      have h := @mapME_wrap toMx PyVal.mxarray (fun t => rfl) (t0 :: rest)
      simpa using h
    simp only [List.map_cons, appendCall, appendArrs, hconv]
    cases expand with
    | false => simp
    | true =>
      have hexp : ∀ t ∈ t0 :: rest, expandDims t (a : Int) =
          .ok ⟨t.shape.insertIdx a 1, t.dtype, t.data⟩ := by
        intro t ht
        have hat : a ≤ t.shape.length := ha t ht
        have h1 : ¬((a : Int) < 0) := not_lt.mpr (Int.natCast_nonneg a)
        simp [expandDims, h1, hat]
      rw [mapME_map_ok hexp]
      simp [List.map_map]
  · rfl

theorem C9_append_returns_separate_arrays_witness :
    appendCall true ((0 : Nat) : Int) false
        ([(⟨[2], .int64, [.int 1, .int 2]⟩ : NpArray)].map PyVal.mxarray) =
      .ok (.list [.mxarray ⟨[1, 2], .int64, [.int 1, .int 2]⟩]) :=
  C9_append_returns_separate_arrays.1 [⟨[2], .int64, [.int 1, .int 2]⟩]
    ⟨[2], .int64, [.int 1, .int 2]⟩ [] true false 0 rfl (by decide)

/-- C10: on the empty input list, Stack, Pad and Group all fail with the
IndexError from indexing the first sample, while AsList returns the empty
list. -/
theorem C10_empty_batch_behaviour :
    (∀ useShared : Bool, stackCall useShared [] = .error .indexError) ∧
    (∀ (cfg : PadCfg) (warned : Bool),
      padCall cfg warned [] = (warned, .error .indexError)) ∧
    (∀ fns : List BFn, groupCall fns [] = .error .indexError) ∧
    asListCall [] = .ok (.list []) :=
  ⟨fun u => by rw [stackCall], fun _ _ => rfl, fun _ => rfl, rfl⟩
